import Mathlib

/-!
Verification development for the `pi-home-utils` sample store
(`src/db/db.c`, `src/db/db.h`): a small SQLite-backed time-series store
for sensor readings, with a Producer role (insert + retention trim) and
a Consumer role (read-only queries).

The embedding models the `SensorData` table as a list of rows kept in
insertion (= ascending `id`) order, with the `AUTOINCREMENT` counter
carried separately so that ids are never reused after a delete.  The
fallible SQLite calls (`sqlite3_open_v2`, `sqlite3_prepare_v2`,
`sqlite3_step`, `sqlite3_finalize`, `sqlite3_exec`) are driven by
explicit Boolean oracle parameters describing whether the underlying
engine call succeeds, so that every error path of the C code is
reachable in the model.  Measurement values (C `float`/`double`) flow
through the store uninterpreted; they are carried as `Rat`.
-/

/-- `sensors_db_mode_t` from `db.h`. -/
inductive sensors_db_mode where
  | SENSORS_DB_PRODUCER : sensors_db_mode
  | SENSORS_DB_CONSUMER : sensors_db_mode
deriving DecidableEq

open sensors_db_mode

/-- One stored row of the `SensorData` table.  `id` is the
`INTEGER PRIMARY KEY AUTOINCREMENT` column; `timestamp` is the text
stored by the `DATETIME DEFAULT CURRENT_TIMESTAMP` column. -/
structure Row where
  id : Nat
  timestamp : List Char
  bmp280_temperature : Rat
  bmp280_pressure : Rat
  htu21d_temperature : Rat
  htu21d_humidity : Rat
deriving DecidableEq

/-- The on-disk `SensorData` table: rows in insertion order, the
`AUTOINCREMENT` counter (`sqlite_sequence`), and a tick counter that
stands for the wall clock read by `CURRENT_TIMESTAMP`. -/
structure Table where
  rows : List Row
  nextId : Nat
  time : Nat
deriving DecidableEq

/-- A freshly created `SensorData` table; `AUTOINCREMENT` ids start at 1. -/
def emptyTable : Table := ⟨[], 1, 0⟩

/-- `sensors_db_t` from `db.h`: the connection (its view of the file's
table), the retention limit and the access mode. -/
structure sensors_db where
  mode : sensors_db_mode
  data_limit : Int
  table : Table
deriving DecidableEq

/-- `sensors_sample_t` from `db.h`.  The `timestamp` field is the
`char timestamp[32]` buffer, modelled as the full list of 32 bytes. -/
structure sensors_sample where
  id : Int
  timestamp : List Char
  bmp280_temperature : Rat
  bmp280_pressure : Rat
  htu21d_temperature : Rat
  htu21d_humidity : Rat
deriving DecidableEq

/-- One decimal digit character. -/
def digitChar (n : Nat) : Char := Char.ofNat (48 + n % 10)

/-- Two-digit zero-padded decimal text. -/
def twoDigits (n : Nat) : List Char := [digitChar (n / 10), digitChar n]

/-- The text stored by SQLite for `DATETIME DEFAULT CURRENT_TIMESTAMP`:
a fixed-format 19-character `YYYY-MM-DD HH:MM:SS` string, here derived
from the table's tick counter (minutes and seconds fields). -/
def tsChars (t : Nat) : List Char :=
  ['2','0','2','6','-','0','1','-','0','1',' ','0','0',':'] ++
    twoDigits (t / 60) ++ (':' :: twoDigits t)

/-- `strncpy(dst, src, n)` into a fresh `n`-byte buffer: copies at most
`n` characters of `src` and zero-fills the remainder; when `src` has
`n` or more characters no NUL terminator is written. -/
def strncpyBuf (src : List Char) (n : Nat) : List Char :=
  src.take n ++ List.replicate (n - src.length) (Char.ofNat 0)

/-- The column reads of `sensors_db_read_latest` / `sensors_db_read_n`
for one fetched row: `sqlite3_column_int`, `strncpy` of
`sqlite3_column_text` into the 32-byte buffer, and the four
`sqlite3_column_double` reads. -/
def sampleOfRow (r : Row) : sensors_sample :=
  ⟨(r.id : Int), strncpyBuf r.timestamp 32, r.bmp280_temperature,
    r.bmp280_pressure, r.htu21d_temperature, r.htu21d_humidity⟩

/-- The row appended by a successful `INSERT INTO SensorData ...`:
id from the `AUTOINCREMENT` counter, timestamp from the clock. -/
def newRow (t : Table) (m1 m2 m3 m4 : Rat) : Row :=
  ⟨t.nextId, tsChars t.time, m1, m2, m3, m4⟩

/-- Effect of a successful insert on the table: the new row is appended,
the `AUTOINCREMENT` counter advances and the clock ticks. -/
def insertRow (t : Table) (m1 m2 m3 m4 : Rat) : Table :=
  ⟨t.rows ++ [newRow t m1 m2 m3 m4], t.nextId + 1, t.time + 1⟩

/-- Insert one row in descending-`id` position into a descending list:
the comparator of `ORDER BY id DESC`. -/
def insertDesc (r : Row) : List Row → List Row
  | [] => [r]
  | x :: xs => if x.id ≤ r.id then r :: x :: xs else x :: insertDesc r xs

/-- `ORDER BY id DESC` over the table rows. -/
def sortDesc : List Row → List Row
  | [] => []
  | x :: xs => insertDesc x (sortDesc xs)

/-- The trim statement of `sensors_db_store_data` (only ever run with a
positive limit):
`DELETE FROM SensorData WHERE id NOT IN (SELECT id FROM SensorData ORDER BY id DESC LIMIT L)`.
Surviving rows keep their relative order in the table. -/
def trimTable (t : Table) (limit : Nat) : Table :=
  ⟨t.rows.filter (fun r => ((sortDesc t.rows).take limit).any (fun k => k.id == r.id)),
    t.nextId, t.time⟩

/-- Diagnostic printed by `sensors_db_store_data` on a non-Producer
handle. -/
def MSG_READ_ONLY : String := "DB is read-only"

/-- Diagnostic printed by a Consumer `sensors_db_open` when the store
file is missing. -/
def MSG_DB_NOT_EXIST : String := "Database does not exist"

/-- Diagnostic printed when `sqlite3_open_v2` fails. -/
def MSG_CANNOT_OPEN : String := "Cannot open DB"

/-- Diagnostic printed when the `CREATE TABLE` statement fails. -/
def MSG_SQL_ERROR : String := "SQL error"

/-- `sensors_db_open` from `db.c`.  `fileExists` is the `access(db_file,
F_OK)` observation, `fileTable` the table held by the file when it
exists; `calloc_ok`, `open_ok` and `exec_ok` are the outcomes of
`calloc`, `sqlite3_open_v2` and the `CREATE TABLE IF NOT EXISTS` exec.
Returns the handle (`NULL` = `none`), whether the file exists
afterwards, and the stderr diagnostics printed. -/
def sensors_db_open (fileExists : Bool) (fileTable : Table) (mode : sensors_db_mode)
    (data_limit : Int) (calloc_ok open_ok exec_ok : Bool) :
    Option sensors_db × Bool × List String :=
  if ¬ calloc_ok then (none, fileExists, [])
  else
    match mode with
    | SENSORS_DB_CONSUMER =>
        -- Consumer must NOT create the DB: checked before any open call.
        if ¬ fileExists then (none, false, [MSG_DB_NOT_EXIST])
        else if ¬ open_ok then (none, true, [MSG_CANNOT_OPEN])
        else (some ⟨SENSORS_DB_CONSUMER, data_limit, fileTable⟩, true, [])
    | SENSORS_DB_PRODUCER =>
        if ¬ open_ok then (none, fileExists, [MSG_CANNOT_OPEN])
        else if ¬ exec_ok then (none, true, [MSG_SQL_ERROR])
        else
          -- CREATE TABLE IF NOT EXISTS: keeps an existing table.
          (some ⟨SENSORS_DB_PRODUCER, data_limit,
                 if fileExists then fileTable else emptyTable⟩, true, [])

/-- `sensors_db_store_data` from `db.c`.  `prepare_ok` is the outcome of
`sqlite3_prepare_v2`; `insert_ok` is whether the `sqlite3_step` of the
insert succeeds — `sqlite3_finalize` then returns the error code of
that most recent step, so its result is `SQLITE_OK` exactly when
`insert_ok` holds; `trim_ok` is the outcome of the `sqlite3_exec` of
the trim statement, whose return value the C code discards.  Returns
the C return value, the updated handle, and the stderr diagnostics. -/
def sensors_db_store_data (self : sensors_db) (m1 m2 m3 m4 : Rat)
    (prepare_ok insert_ok trim_ok : Bool) : Int × sensors_db × List String :=
  if self.mode ≠ SENSORS_DB_PRODUCER then (-1, self, [MSG_READ_ONLY])
  else if ¬ prepare_ok then (-1, self, [])
  else
    let t1 := if insert_ok then insertRow self.table m1 m2 m3 m4 else self.table
    if ¬ insert_ok then (-1, ⟨self.mode, self.data_limit, t1⟩, [])
    else if 0 < self.data_limit then
      let t2 := if trim_ok then trimTable t1 self.data_limit.toNat else t1
      (0, ⟨self.mode, self.data_limit, t2⟩, [])
    else (0, ⟨self.mode, self.data_limit, t1⟩, [])

/-- `sensors_db_read_latest` from `db.c`.  `prepare_ok` is the outcome
of `sqlite3_prepare_v2`; `step_err` makes the single `sqlite3_step`
return an error instead of `SQLITE_ROW`/`SQLITE_DONE`.  On the success
path the final `sqlite3_finalize` returns `SQLITE_OK` (the most recent
step returned a row without error), which is the value returned. -/
def sensors_db_read_latest (self : sensors_db) (prepare_ok step_err : Bool) :
    Int × Option sensors_sample :=
  if ¬ prepare_ok then (-1, none)
  else if step_err then (-1, none)
  else
    match (sortDesc self.table.rows).head? with
    | none => (-1, none)
    | some r => (0, some (sampleOfRow r))

/-- The row loop of `sensors_db_read_n`: each iteration steps the
statement (an error exit when the fail countdown reaches zero, or
`SQLITE_DONE` when the rows run out), copies the fetched row into
`out_array[count++]`, then breaks once `count >= max_samples`. -/
def read_n_loop (max_samples : Int) :
    List Row → Option Nat → Nat → List sensors_sample → Nat × List sensors_sample
  | _, some 0, count, acc => (count, acc)
  | [], _, count, acc => (count, acc)
  | r :: rest, f, count, acc =>
      if (count + 1 : Int) ≥ max_samples then (count + 1, acc ++ [sampleOfRow r])
      else read_n_loop max_samples rest (f.map (fun n => n - 1)) (count + 1)
        (acc ++ [sampleOfRow r])

/-- `sensors_db_read_n` from `db.c`.  The SQL `LIMIT ?` is bound to
`max_samples`; SQLite treats a negative `LIMIT` as no limit, so the
statement then offers every row.  `failAfter = some k` makes the
`sqlite3_step` after `k` successful row fetches return an error;
`none` lets the iteration run to completion.  The result of the final
`sqlite3_finalize` is discarded by the C code, which returns `count`. -/
def sensors_db_read_n (self : sensors_db) (max_samples : Int)
    (prepare_ok : Bool) (failAfter : Option Nat) : Int × List sensors_sample :=
  if ¬ prepare_ok then (-1, [])
  else
    let avail := if max_samples < 0 then sortDesc self.table.rows
                 else (sortDesc self.table.rows).take max_samples.toNat
    let res := read_n_loop max_samples avail failAfter 0 []
    ((res.1 : Int), res.2)

/-- `sensors_db_close` from `db.c`: releases the handle; a no-op on
`NULL`.  The file's table is unaffected. -/
def sensors_db_close (_self : Option sensors_db) : Unit := ()

/-- Rows listed in strictly ascending `id` order. -/
def idsAscending (rows : List Row) : Prop :=
  rows.Pairwise (fun a b => a.id < b.id)

/-- Well-formedness of a table maintained by the store: rows in strictly
ascending `id` order, all ids below the `AUTOINCREMENT` counter. -/
def tableWf (t : Table) : Prop :=
  idsAscending t.rows ∧ ∀ r ∈ t.rows, r.id < t.nextId

/-- The usable characters of a `char` buffer: everything before the
first NUL byte. -/
def usableChars (buf : List Char) : List Char :=
  buf.takeWhile (fun c => c ≠ Char.ofNat 0)

instance : DecidablePred idsAscending := fun rows =>
  List.instDecidablePairwise rows

instance (t : Table) : Decidable (tableWf t) := by
  unfold tableWf; infer_instance

/-! ### Lemmas about `ORDER BY id DESC` -/

theorem length_insertDesc (r : Row) (l : List Row) :
    (insertDesc r l).length = l.length + 1 := by
  induction l with
  | nil => rfl
  | cons x xs ih =>
      simp only [insertDesc]
      split
      · simp
      · simp [ih]

theorem length_sortDesc (l : List Row) : (sortDesc l).length = l.length := by
  induction l with
  | nil => rfl
  | cons x xs ih => simp [sortDesc, length_insertDesc, ih]

theorem insertDesc_of_lt (r : Row) (l : List Row)
    (h : ∀ y ∈ l, r.id < y.id) : insertDesc r l = l ++ [r] := by
  induction l with
  | nil => rfl
  | cons x xs ih =>
      have hx : r.id < x.id := h x (by simp)
      simp only [insertDesc]
      rw [if_neg (by omega)]
      rw [ih (fun y hy => h y (by simp [hy]))]
      simp

/-- On a table whose rows are in strictly ascending `id` order (the
store's invariant), `ORDER BY id DESC` is exactly list reversal. -/
theorem sortDesc_eq_reverse (l : List Row) (h : idsAscending l) :
    sortDesc l = l.reverse := by
  induction l with
  | nil => rfl
  | cons x xs ih =>
      obtain ⟨hx, hxs⟩ := List.pairwise_cons.mp h
      have : sortDesc (x :: xs) = insertDesc x (sortDesc xs) := rfl
      rw [this, ih hxs, insertDesc_of_lt]
      · simp
      · intro y hy
        exact hx y (List.mem_reverse.mp hy)

/-! ### Lemmas about the row loop of `sensors_db_read_n` -/

theorem read_n_loop_none (max_samples : Int) (avail : List Row) (count : Nat)
    (acc : List sensors_sample)
    (h : (count : Int) + avail.length ≤ max_samples) :
    read_n_loop max_samples avail none count acc =
      (count + avail.length, acc ++ avail.map sampleOfRow) := by
  induction avail generalizing count acc with
  | nil => simp [read_n_loop]
  | cons r rest ih =>
      simp only [read_n_loop]
      split
      · rename_i hge
        have hlen : rest.length = 0 := by
          simp only [List.length_cons] at h
          push_cast at h hge
          omega
        obtain rfl := List.length_eq_zero.mp hlen
        simp
      · rename_i hlt
        rw [show (none : Option Nat).map (fun n => n - 1) = none from rfl]
        rw [ih (count + 1) (acc ++ [sampleOfRow r])
          (by simp only [List.length_cons] at h; push_cast at h ⊢; omega)]
        simp only [Prod.mk.injEq, List.length_cons, List.map_cons, List.append_assoc,
          List.singleton_append]
        exact ⟨by omega, by simp⟩

theorem read_n_loop_fail (max_samples : Int) (k : Nat) (avail : List Row)
    (count : Nat) (acc : List sensors_sample) (hk : k ≤ avail.length)
    (h : (count : Int) + k ≤ max_samples) :
    read_n_loop max_samples avail (some k) count acc =
      (count + k, acc ++ (avail.take k).map sampleOfRow) := by
  induction k generalizing avail count acc with
  | zero => cases avail <;> simp [read_n_loop]
  | succ k ih =>
      cases avail with
      | nil => simp at hk
      | cons r rest =>
          simp only [read_n_loop]
          split
          · rename_i hge
            have hk0 : k = 0 := by push_cast at h hge; omega
            subst hk0
            simp
          · rename_i hlt
            rw [show (some (k + 1)).map (fun n => n - 1) = some k by simp]
            rw [ih rest (count + 1) (acc ++ [sampleOfRow r])
              (by simpa using hk) (by push_cast at h ⊢; omega)]
            simp only [Prod.mk.injEq, List.take_succ_cons, List.map_cons,
              List.append_assoc, List.singleton_append]
            exact ⟨by omega, by simp⟩

theorem read_n_loop_neg (max_samples : Int) (hneg : max_samples < 0) (r : Row)
    (rest : List Row) (count : Nat) (acc : List sensors_sample) :
    read_n_loop max_samples (r :: rest) none count acc =
      (count + 1, acc ++ [sampleOfRow r]) := by
  simp only [read_n_loop]
  rw [if_pos (by omega)]

/-! ### Lemmas about the retention trim -/

theorem filter_keep_of_ascending (rows : List Row) (L : Nat) (h : idsAscending rows) :
    rows.filter (fun r => ((rows.reverse).take L).any (fun k => k.id == r.id)) =
      rows.drop (rows.length - L) := by
  induction rows with
  | nil => simp
  | cons x xs ih =>
      obtain ⟨hx, hxs⟩ := List.pairwise_cons.mp h
      by_cases hL : xs.length < L
      · have hkeep : ((x :: xs).reverse).take L = (x :: xs).reverse := by
          apply List.take_of_length_le
          simp
          omega
        have hall : (x :: xs).length - L = 0 := by simp; omega
        rw [hkeep, hall, List.drop_zero]
        apply List.filter_eq_self.mpr
        intro a ha
        simp only [List.any_eq_true, beq_iff_eq]
        exact ⟨a, List.mem_reverse.mpr ha, rfl⟩
      · push_neg at hL
        have hkeep : ((x :: xs).reverse).take L = (xs.reverse).take L := by
          rw [List.reverse_cons, List.take_append_of_le_length (by simpa using hL)]
        rw [hkeep, List.filter_cons]
        have hxfalse : ((xs.reverse.take L).any fun k => k.id == x.id) = false := by
          apply List.any_eq_false.mpr
          intro k hk
          have hkxs : k ∈ xs := List.mem_reverse.mp (List.mem_of_mem_take hk)
          have hlt := hx k hkxs
          simp only [beq_iff_eq, beq_eq_false_iff_ne, ne_eq]
          omega
        rw [hxfalse]
        simp only [Bool.false_eq_true, if_false]
        rw [ih hxs]
        have hdrop : (x :: xs).length - L = (xs.length - L) + 1 := by simp; omega
        rw [hdrop, List.drop_succ_cons]

/-- On a well-ordered table the trim keeps exactly the suffix of the
`L` newest rows. -/
theorem trimTable_rows (t : Table) (L : Nat) (h : idsAscending t.rows) :
    (trimTable t L).rows = t.rows.drop (t.rows.length - L) := by
  unfold trimTable
  simp only
  rw [sortDesc_eq_reverse _ h, filter_keep_of_ascending _ _ h]

/-! ### Invariant preservation through the write path -/

theorem insertRow_rows (t : Table) (m1 m2 m3 m4 : Rat) :
    (insertRow t m1 m2 m3 m4).rows = t.rows ++ [newRow t m1 m2 m3 m4] := rfl

theorem tableWf_insertRow (t : Table) (m1 m2 m3 m4 : Rat) (h : tableWf t) :
    tableWf (insertRow t m1 m2 m3 m4) := by
  obtain ⟨h1, h2⟩ := h
  constructor
  · show List.Pairwise (fun a b => a.id < b.id) (t.rows ++ [newRow t m1 m2 m3 m4])
    rw [List.pairwise_append]
    refine ⟨h1, by simp, ?_⟩
    intro a ha b hb
    rw [List.mem_singleton] at hb
    subst hb
    exact h2 a ha
  · show ∀ r ∈ t.rows ++ [newRow t m1 m2 m3 m4], r.id < t.nextId + 1
    intro r hr
    rcases List.mem_append.mp hr with hr | hr
    · have := h2 r hr
      omega
    · rw [List.mem_singleton] at hr
      subst hr
      simp [newRow]

/-- A sequence of `sensors_db_store_data` calls in which every
underlying SQLite call succeeds. -/
def storeMany (db : sensors_db) : List (Rat × Rat × Rat × Rat) → sensors_db
  | [] => db
  | m :: ms =>
      storeMany (sensors_db_store_data db m.1 m.2.1 m.2.2.1 m.2.2.2 true true true).2.1 ms

theorem store_step_unlimited (db : sensors_db) (m1 m2 m3 m4 : Rat)
    (hm : db.mode = SENSORS_DB_PRODUCER) (hl : db.data_limit ≤ 0) :
    sensors_db_store_data db m1 m2 m3 m4 true true true =
      (0, ⟨db.mode, db.data_limit, insertRow db.table m1 m2 m3 m4⟩, []) := by
  simp [sensors_db_store_data, hm, show ¬ (0 : Int) < db.data_limit by omega]

theorem storeMany_unlimited (ms : List (Rat × Rat × Rat × Rat)) (db : sensors_db)
    (hm : db.mode = SENSORS_DB_PRODUCER) (hl : db.data_limit = 0)
    (hwf : tableWf db.table) :
    (storeMany db ms).mode = SENSORS_DB_PRODUCER ∧
      (storeMany db ms).data_limit = 0 ∧
      tableWf (storeMany db ms).table ∧
      (storeMany db ms).table.rows.length = db.table.rows.length + ms.length := by
  induction ms generalizing db with
  | nil => exact ⟨hm, hl, hwf, by simp [storeMany]⟩
  | cons m ms ih =>
      have hstep := store_step_unlimited db m.1 m.2.1 m.2.2.1 m.2.2.2 hm (by omega)
      have hrw : storeMany db (m :: ms) =
          storeMany ⟨db.mode, db.data_limit,
            insertRow db.table m.1 m.2.1 m.2.2.1 m.2.2.2⟩ ms := by
        simp [storeMany, hstep]
      rw [hrw]
      have h' := ih ⟨db.mode, db.data_limit, insertRow db.table m.1 m.2.1 m.2.2.1 m.2.2.2⟩
        hm hl (tableWf_insertRow _ _ _ _ _ hwf)
      refine ⟨h'.1, h'.2.1, h'.2.2.1, ?_⟩
      rw [h'.2.2.2]
      show (insertRow db.table m.1 m.2.1 m.2.2.1 m.2.2.2).rows.length + ms.length =
        db.table.rows.length + (m :: ms).length
      simp only [insertRow_rows, List.length_append, List.length_singleton,
        List.length_cons, List.length_nil]
      omega

/-- A fully successful `sensors_db_read_n` with a non-negative limit
returns the `min(max_samples, total_rows)` newest rows. -/
theorem read_n_complete (db : sensors_db) (max_samples : Int) (h0 : 0 ≤ max_samples) :
    sensors_db_read_n db max_samples true none =
      (((min max_samples.toNat db.table.rows.length : Nat) : Int),
        ((sortDesc db.table.rows).take max_samples.toNat).map sampleOfRow) := by
  simp only [sensors_db_read_n]
  rw [if_neg (by simp), if_neg (by omega)]
  have hlen : ((sortDesc db.table.rows).take max_samples.toNat).length =
      min max_samples.toNat db.table.rows.length := by
    simp [List.length_take, length_sortDesc]
  rw [read_n_loop_none _ _ _ _ (by rw [hlen]; push_cast; omega)]
  simp [hlen]

/-! ### Timestamp text and buffer copy lemmas -/

theorem digitChar_mem (n : Nat) :
    digitChar n ∈ ['0','1','2','3','4','5','6','7','8','9'] := by
  unfold digitChar
  have h10 : n % 10 = 0 ∨ n % 10 = 1 ∨ n % 10 = 2 ∨ n % 10 = 3 ∨ n % 10 = 4 ∨
      n % 10 = 5 ∨ n % 10 = 6 ∨ n % 10 = 7 ∨ n % 10 = 8 ∨ n % 10 = 9 := by omega
  rcases h10 with h|h|h|h|h|h|h|h|h|h <;> rw [h] <;> decide

theorem digitChar_ne_nul (n : Nat) : digitChar n ≠ Char.ofNat 0 := by
  intro h
  have hm := digitChar_mem n
  rw [h] at hm
  exact absurd hm (by decide)

theorem length_tsChars (t : Nat) : (tsChars t).length = 19 := by
  simp [tsChars, twoDigits]

theorem nul_not_mem_tsChars (t : Nat) : Char.ofNat 0 ∉ tsChars t := by
  intro hmem
  simp only [tsChars, twoDigits, List.mem_append, List.mem_cons,
    List.not_mem_nil, or_false] at hmem
  casesm* _ ∨ _ <;> rename_i h <;>
    first
      | exact absurd h (by decide)
      | exact digitChar_ne_nul _ h.symm

theorem length_strncpyBuf (src : List Char) (n : Nat) :
    (strncpyBuf src n).length = n := by
  unfold strncpyBuf
  simp [List.length_take]
  omega

theorem strncpyBuf_take (src : List Char) (n : Nat) :
    strncpyBuf (src.take n) n = strncpyBuf src n := by
  unfold strncpyBuf
  rw [List.take_take, min_self]
  congr 2
  simp [List.length_take]
  omega

theorem takeWhile_all_append (p : Char → Bool) (l1 l2 : List Char)
    (h : ∀ a ∈ l1, p a = true) :
    (l1 ++ l2).takeWhile p = l1 ++ l2.takeWhile p := by
  induction l1 with
  | nil => simp
  | cons x xs ih =>
      simp only [List.cons_append, List.takeWhile_cons, h x (by simp)]
      simp [ih (fun a ha => h a (by simp [ha]))]

theorem takeWhile_replicate_nul (k : Nat) :
    (List.replicate k (Char.ofNat 0)).takeWhile
      (fun c => decide (c ≠ Char.ofNat 0)) = [] := by
  cases k with
  | zero => rfl
  | succ k => simp [List.replicate_succ, List.takeWhile_cons]

/-- For a NUL-free stored text of at most 31 characters, the usable part
of the 32-byte buffer filled by `strncpy` is exactly the stored text. -/
theorem usableChars_strncpyBuf (src : List Char) (hlen : src.length ≤ 31)
    (hnul : Char.ofNat 0 ∉ src) :
    usableChars (strncpyBuf src 32) = src := by
  unfold usableChars strncpyBuf
  rw [List.take_of_length_le (by omega)]
  rw [takeWhile_all_append _ _ _ (fun a ha => by
    simp only [ne_eq, decide_eq_true_eq]
    intro hEq
    exact hnul (hEq ▸ ha))]
  rw [takeWhile_replicate_nul]
  simp

/-! ### Membership lemmas for the read path -/

theorem mem_insertDesc (r x : Row) (l : List Row) :
    x ∈ insertDesc r l ↔ x = r ∨ x ∈ l := by
  induction l with
  | nil => simp [insertDesc]
  | cons y ys ih =>
      simp only [insertDesc]
      split
      · simp [List.mem_cons]
      · simp [List.mem_cons, ih]
        tauto

theorem mem_sortDesc (x : Row) (l : List Row) : x ∈ sortDesc l ↔ x ∈ l := by
  induction l with
  | nil => simp [sortDesc]
  | cons y ys ih => simp [sortDesc, mem_insertDesc, ih]

theorem read_n_loop_mem (max_samples : Int) (avail : List Row) (f : Option Nat)
    (count : Nat) (acc : List sensors_sample) :
    ∀ s ∈ (read_n_loop max_samples avail f count acc).2,
      s ∈ acc ∨ ∃ r ∈ avail, s = sampleOfRow r := by
  induction avail generalizing f count acc with
  | nil =>
      intro s hs
      rcases f with _ | n
      · simp [read_n_loop] at hs
        exact Or.inl hs
      · cases n <;> simp [read_n_loop] at hs <;> exact Or.inl hs
  | cons r rest ih =>
      intro s hs
      rcases f with _ | n
      · simp only [read_n_loop] at hs
        split at hs
        · simp only [List.mem_append, List.mem_singleton] at hs
          rcases hs with hs | hs
          · exact Or.inl hs
          · exact Or.inr ⟨r, by simp, hs⟩
        · rcases ih _ _ _ s hs with h | ⟨r', hr', hsr⟩
          · simp only [List.mem_append, List.mem_singleton] at h
            rcases h with h | h
            · exact Or.inl h
            · exact Or.inr ⟨r, by simp, h⟩
          · exact Or.inr ⟨r', by simp [hr'], hsr⟩
      · cases n with
        | zero =>
            simp [read_n_loop] at hs
            exact Or.inl hs
        | succ n =>
            simp only [read_n_loop] at hs
            split at hs
            · simp only [List.mem_append, List.mem_singleton] at hs
              rcases hs with hs | hs
              · exact Or.inl hs
              · exact Or.inr ⟨r, by simp, hs⟩
            · rcases ih _ _ _ s hs with h | ⟨r', hr', hsr⟩
              · simp only [List.mem_append, List.mem_singleton] at h
                rcases h with h | h
                · exact Or.inl h
                · exact Or.inr ⟨r, by simp, h⟩
              · exact Or.inr ⟨r', by simp [hr'], hsr⟩

/-! ### Concrete stores used to instantiate the theorems -/

/-- A Consumer handle over an empty table. -/
def consumerEmptyDb : sensors_db := ⟨SENSORS_DB_CONSUMER, 0, emptyTable⟩

/-- A Producer handle with retention limit 1 over a one-row table. -/
def producerOneRowDb : sensors_db :=
  ⟨SENSORS_DB_PRODUCER, 1, ⟨[⟨1, tsChars 0, 1, 2, 3, 4⟩], 2, 1⟩⟩

/-- A Consumer handle over a two-row table. -/
def consumerTwoRowDb : sensors_db :=
  ⟨SENSORS_DB_CONSUMER, 0,
    ⟨[⟨1, tsChars 0, 1, 2, 3, 4⟩, ⟨2, tsChars 1, 5, 6, 7, 8⟩], 3, 2⟩⟩

/-- A Consumer handle over a one-row table. -/
def consumerOneRowDb : sensors_db :=
  ⟨SENSORS_DB_CONSUMER, 0, ⟨[⟨1, tsChars 0, 1, 2, 3, 4⟩], 2, 1⟩⟩

/-- A fresh Producer handle with unlimited retention. -/
def producerFreshDb : sensors_db := ⟨SENSORS_DB_PRODUCER, 0, emptyTable⟩

/-- Two measurement quadruples for the store sequence instantiation. -/
def twoMeas : List (Rat × Rat × Rat × Rat) := [(1, 2, 3, 4), (5, 6, 7, 8)]

/-! ### Claims -/

/-- C5: `sensors_db_store_data` on a handle whose role is not Producer
fails (returns -1) with the read-only permission diagnostic and leaves
the handle — in particular the `SensorData` table — completely
unchanged, whatever the measurement values and whatever the outcomes of
the underlying SQLite calls. -/
theorem store_on_consumer_fails (db : sensors_db) (m1 m2 m3 m4 : Rat)
    (p i tr : Bool) (hm : db.mode ≠ SENSORS_DB_PRODUCER) :
    sensors_db_store_data db m1 m2 m3 m4 p i tr = (-1, db, [MSG_READ_ONLY]) := by
  simp [sensors_db_store_data, hm]

theorem store_on_consumer_fails_witness :
    sensors_db_store_data consumerEmptyDb 1 2 3 4 true true true =
      (-1, consumerEmptyDb, [MSG_READ_ONLY]) :=
  store_on_consumer_fails consumerEmptyDb 1 2 3 4 true true true (by decide)

/-- C6: opening a missing store file in Consumer role fails: no handle
is returned, no file is created on disk (the file-existence state stays
`false`), and — whenever the handle allocation itself succeeded — the
missing-database diagnostic identifying the not-found failure is
printed, whatever the outcomes of the remaining calls. -/
theorem consumer_open_missing_file (ft : Table) (lim : Int) (c o e : Bool) :
    (sensors_db_open false ft SENSORS_DB_CONSUMER lim c o e).1 = none ∧
    (sensors_db_open false ft SENSORS_DB_CONSUMER lim c o e).2.1 = false ∧
    (c = true → (sensors_db_open false ft SENSORS_DB_CONSUMER lim c o e).2.2 =
      [MSG_DB_NOT_EXIST]) := by
  cases c <;> simp [sensors_db_open]

theorem consumer_open_missing_file_witness :
    (sensors_db_open false emptyTable SENSORS_DB_CONSUMER 0 true true true).1 = none ∧
      (sensors_db_open false emptyTable SENSORS_DB_CONSUMER 0 true true true).2.2 =
        [MSG_DB_NOT_EXIST] :=
  ⟨(consumer_open_missing_file emptyTable 0 true true true).1,
    (consumer_open_missing_file emptyTable 0 true true true).2.2 rfl⟩

/-- C7: on a Producer handle `sensors_db_store_data` reports success
(returns 0) exactly when the insert statement compiles
(`sqlite3_prepare_v2` succeeds) and finalizes successfully
(`sqlite3_finalize` returns `SQLITE_OK`, which per the SQLite contract
happens exactly when the insert step succeeded); the outcome of the
best-effort post-insert retention trim never changes the returned
value. -/
theorem store_success_iff (db : sensors_db) (m1 m2 m3 m4 : Rat)
    (p i tr : Bool) (hm : db.mode = SENSORS_DB_PRODUCER) :
    (sensors_db_store_data db m1 m2 m3 m4 p i tr).1 = 0 ↔ (p = true ∧ i = true) := by
  cases p <;> cases i <;> simp [sensors_db_store_data, hm]
  split <;> rfl

theorem store_success_iff_witness :
    ((sensors_db_store_data producerOneRowDb 5 6 7 8 true true false).1 = 0 ↔
      (true = true ∧ true = true)) :=
  store_success_iff producerOneRowDb 5 6 7 8 true true false rfl

theorem store_step_limited (db : sensors_db) (m1 m2 m3 m4 : Rat)
    (hm : db.mode = SENSORS_DB_PRODUCER) (hl : 0 < db.data_limit) :
    sensors_db_store_data db m1 m2 m3 m4 true true true =
      (0, ⟨db.mode, db.data_limit,
        trimTable (insertRow db.table m1 m2 m3 m4) db.data_limit.toNat⟩, []) := by
  simp [sensors_db_store_data, hm, hl]

/-- C1 fails as stated: with retention limit 1 over a one-row table, a
store call during which the trim statement errors (an outcome the C
code silently discards) still returns success (0) while leaving two
rows — more than the limit — in the table. -/
theorem store_trim_failure_cex :
    (sensors_db_store_data producerOneRowDb 5 6 7 8 true true false).1 = 0 ∧
    ¬ ((sensors_db_store_data producerOneRowDb 5 6 7 8
        true true false).2.1.table.rows.length ≤ 1) := by
  decide

/-- C1 (amended): on a well-formed Producer table, after a successful
store call whose retention trim statement also executes successfully,
a limit L > 0 leaves exactly the newest min(L, old count + 1) rows —
the suffix of the post-insert table holding the rows with the L
greatest ids — hence at most L rows; with L ≤ 0 the write path never
deletes a row: whatever the call outcomes, the old rows survive as a
prefix of the table. -/
theorem store_retention (db : sensors_db) (m1 m2 m3 m4 : Rat)
    (hwf : tableWf db.table) (hm : db.mode = SENSORS_DB_PRODUCER) :
    (sensors_db_store_data db m1 m2 m3 m4 true true true).1 = 0 ∧
    (0 < db.data_limit →
      (sensors_db_store_data db m1 m2 m3 m4 true true true).2.1.table.rows =
        (db.table.rows ++ [newRow db.table m1 m2 m3 m4]).drop
          (db.table.rows.length + 1 - db.data_limit.toNat) ∧
      (sensors_db_store_data db m1 m2 m3 m4 true true true).2.1.table.rows.length ≤
        db.data_limit.toNat) ∧
    (db.data_limit ≤ 0 → ∀ p i tr : Bool, ∃ rest,
      (sensors_db_store_data db m1 m2 m3 m4 p i tr).2.1.table.rows =
        db.table.rows ++ rest) := by
  refine ⟨?_, ?_, ?_⟩
  · rcases le_or_lt db.data_limit 0 with hl | hl
    · rw [store_step_unlimited db m1 m2 m3 m4 hm hl]
    · rw [store_step_limited db m1 m2 m3 m4 hm hl]
  · intro hl
    rw [store_step_limited db m1 m2 m3 m4 hm hl]
    have hasc := (tableWf_insertRow db.table m1 m2 m3 m4 hwf).1
    constructor
    · show (trimTable (insertRow db.table m1 m2 m3 m4) db.data_limit.toNat).rows = _
      rw [trimTable_rows _ _ hasc, insertRow_rows]
      congr 1
      simp
    · show (trimTable (insertRow db.table m1 m2 m3 m4)
        db.data_limit.toNat).rows.length ≤ _
      rw [trimTable_rows _ _ hasc]
      simp only [List.length_drop, insertRow_rows, List.length_append,
        List.length_singleton]
      omega
  · intro hl p i tr
    cases p with
    | false =>
        refine ⟨[], ?_⟩
        simp [sensors_db_store_data, hm]
    | true =>
        cases i with
        | false =>
            refine ⟨[], ?_⟩
            simp [sensors_db_store_data, hm]
        | true =>
            refine ⟨[newRow db.table m1 m2 m3 m4], ?_⟩
            simp [sensors_db_store_data, hm, show ¬ 0 < db.data_limit by omega,
              insertRow_rows]

theorem store_retention_witness :
    (sensors_db_store_data producerOneRowDb 5 6 7 8 true true true).1 = 0 ∧
    (sensors_db_store_data producerOneRowDb 5 6 7 8
      true true true).2.1.table.rows.length ≤ (1 : Int).toNat := by
  have h := store_retention producerOneRowDb 5 6 7 8 (by decide) rfl
  exact ⟨h.1, (h.2.1 (by decide)).2⟩

/-- C3 fails as stated: on a two-row table an error-free
`sensors_db_read_n` call with `max_samples = -1` completes normally and
returns 1 — not `min(-1, 2) = -1` — and writes one entry to the output
buffer, which is more than `max_samples` entries. -/
theorem read_n_negative_cex :
    (sensors_db_read_n consumerTwoRowDb (-1) true none).1 = 1 ∧
    (sensors_db_read_n consumerTwoRowDb (-1) true none).1 ≠
      min (-1 : Int) (consumerTwoRowDb.table.rows.length : Int) ∧
    ¬ (((sensors_db_read_n consumerTwoRowDb (-1) true none).2.length : Int) ≤ -1) := by
  decide

/-- C3 (amended): for non-negative `max_samples`, a `sensors_db_read_n`
call whose statement prepares successfully and whose row iteration runs
without error returns `min(max_samples, total_rows)`, writes exactly
that many entries to the output buffer — never more than
`max_samples` — and stops consuming rows once `max_samples` entries
have been produced. -/
theorem read_n_count (db : sensors_db) (max_samples : Int) (h0 : 0 ≤ max_samples) :
    (sensors_db_read_n db max_samples true none).1 =
      min max_samples (db.table.rows.length : Int) ∧
    (sensors_db_read_n db max_samples true none).2.length =
      min max_samples.toNat db.table.rows.length ∧
    ((sensors_db_read_n db max_samples true none).2.length : Int) ≤ max_samples := by
  rw [read_n_complete db max_samples h0]
  refine ⟨?_, ?_, ?_⟩
  · show ((min max_samples.toNat db.table.rows.length : Nat) : Int) =
      min max_samples (db.table.rows.length : Int)
    push_cast
    omega
  · show (((sortDesc db.table.rows).take max_samples.toNat).map sampleOfRow).length =
      min max_samples.toNat db.table.rows.length
    simp [List.length_take, length_sortDesc]
  · show ((((sortDesc db.table.rows).take max_samples.toNat).map
      sampleOfRow).length : Int) ≤ max_samples
    simp only [List.length_map, List.length_take, length_sortDesc]
    push_cast
    omega

theorem read_n_count_witness :
    (sensors_db_read_n consumerOneRowDb 5 true none).1 =
      min (5 : Int) (consumerOneRowDb.table.rows.length : Int) :=
  (read_n_count consumerOneRowDb 5 (by decide)).1

/-- C2 fails as stated: on a two-row table, a read of two rows whose
second step errors after one row has already been copied returns 1 —
the partial count, an ordinary non-negative result indistinguishable
from a successful truncated read — not a hard error. -/
theorem read_n_truncation_cex :
    (sensors_db_read_n consumerTwoRowDb 2 true (some 1)).1 = 1 ∧
    (sensors_db_read_n consumerTwoRowDb 2 true (some 1)).1 ≠ -1 ∧
    (sensors_db_read_n consumerTwoRowDb 2 true (some 1)).2.length = 1 := by
  decide

/-- C2 (amended): when the row iteration of `sensors_db_read_n` fails
mid-way after `k` rows have been copied (k below both the limit and the
row count), the function returns the partial count `k` as an ordinary
non-negative truncated result: the error of the iteration is discarded
together with the `sqlite3_finalize` result, so no hard error reaches
the caller. -/
theorem read_n_truncated (db : sensors_db) (max_samples : Int) (k : Nat)
    (h0 : 0 ≤ max_samples) (hk : (k : Int) ≤ max_samples)
    (hrows : k ≤ db.table.rows.length) :
    (sensors_db_read_n db max_samples true (some k)).1 = k ∧
    0 ≤ (sensors_db_read_n db max_samples true (some k)).1 ∧
    (sensors_db_read_n db max_samples true (some k)).2.length = k := by
  simp only [sensors_db_read_n]
  rw [if_neg (by simp), if_neg (by omega)]
  rw [read_n_loop_fail max_samples k ((sortDesc db.table.rows).take max_samples.toNat) 0 []
    (by simp only [List.length_take, length_sortDesc]; omega)
    (by omega)]
  refine ⟨by simp, by simp, ?_⟩
  simp only [List.nil_append, List.length_map, List.length_take, length_sortDesc]
  omega

theorem read_n_truncated_witness :
    (sensors_db_read_n consumerTwoRowDb 2 true (some 1)).2.length = 1 :=
  (read_n_truncated consumerTwoRowDb 2 1 (by decide) (by decide) (by decide)).2.2

/-- C10: a negative `max_samples` is bound to the SQL `LIMIT`, which
SQLite treats as unlimited, and the `count >= max_samples` stop check
only fires after the first row has been copied: an error-free call on a
non-empty table writes exactly one entry to the output buffer and
returns 1, while on an empty table it returns 0 and writes nothing. -/
theorem read_n_negative_limit (db : sensors_db) (max_samples : Int)
    (hneg : max_samples < 0) :
    (db.table.rows = [] → sensors_db_read_n db max_samples true none = (0, [])) ∧
    (db.table.rows ≠ [] →
      (sensors_db_read_n db max_samples true none).1 = 1 ∧
      (sensors_db_read_n db max_samples true none).2.length = 1) := by
  constructor
  · intro h
    simp [sensors_db_read_n, h, sortDesc, read_n_loop]
  · intro h
    simp only [sensors_db_read_n]
    rw [if_neg (by simp), if_pos hneg]
    obtain ⟨r, rest, hsd⟩ : ∃ r rest, sortDesc db.table.rows = r :: rest := by
      cases hs : sortDesc db.table.rows with
      | nil =>
          have hlen := length_sortDesc db.table.rows
          rw [hs] at hlen
          exact absurd (List.length_eq_zero.mp hlen.symm) h
      | cons r rest => exact ⟨r, rest, rfl⟩
    rw [hsd, read_n_loop_neg max_samples hneg]
    simp

theorem read_n_negative_limit_witness :
    (sensors_db_read_n consumerOneRowDb (-1) true none).1 = 1 ∧
    (sensors_db_read_n consumerOneRowDb (-1) true none).2.length = 1 :=
  (read_n_negative_limit consumerOneRowDb (-1) (by decide)).2 (by decide)

theorem reverse_take_eq_drop_reverse {α : Type} (l : List α) (n : Nat)
    (h : n ≤ l.length) :
    l.reverse.take n = (l.drop (l.length - n)).reverse := by
  conv_lhs => rw [← List.take_append_drop (l.length - n) l]
  rw [List.reverse_append]
  rw [List.take_append_of_le_length (by simp [List.length_drop]; omega)]
  rw [List.take_of_length_le (by simp [List.length_drop]; omega)]

/-- C4: for every sequence of fully successful store calls
(`storeMany` with the all-ok oracle) on a Producer handle with
retention limit 0, reading back as many samples as were stored returns
exactly that count, and the returned sequence is the inserted suffix of
the table most-recent-first — the insertion order reversed — with
strictly descending ids. -/
theorem read_n_after_stores (ms : List (Rat × Rat × Rat × Rat)) (db : sensors_db)
    (hm : db.mode = SENSORS_DB_PRODUCER) (hl : db.data_limit = 0)
    (hwf : tableWf db.table) :
    (sensors_db_read_n (storeMany db ms) (ms.length : Int) true none).1 = ms.length ∧
    (sensors_db_read_n (storeMany db ms) (ms.length : Int) true none).2 =
      (((storeMany db ms).table.rows.drop db.table.rows.length).map sampleOfRow).reverse ∧
    ((sensors_db_read_n (storeMany db ms) (ms.length : Int) true none).2.map
      sensors_sample.id).Pairwise (fun a b => b < a) := by
  obtain ⟨hm', hl', hwf', hlen⟩ := storeMany_unlimited ms db hm hl hwf
  have hread := read_n_complete (storeMany db ms) (ms.length : Int) (by omega)
  rw [Int.toNat_natCast] at hread
  rw [sortDesc_eq_reverse _ hwf'.1] at hread
  have htake : (storeMany db ms).table.rows.reverse.take ms.length =
      ((storeMany db ms).table.rows.drop db.table.rows.length).reverse := by
    rw [reverse_take_eq_drop_reverse _ _ (by omega)]
    congr 2
    omega
  rw [htake] at hread
  have hmin : min ms.length (storeMany db ms).table.rows.length = ms.length := by omega
  have hsuffix : (((storeMany db ms).table.rows.drop
      db.table.rows.length)).Pairwise (fun a b => a.id < b.id) :=
    List.Pairwise.sublist (List.drop_sublist _ _) hwf'.1
  refine ⟨?_, ?_, ?_⟩
  · rw [hread]
    show ((min ms.length (storeMany db ms).table.rows.length : Nat) : Int) =
      (ms.length : Int)
    rw [hmin]
  · rw [hread]
    show (((storeMany db ms).table.rows.drop db.table.rows.length).reverse.map
      sampleOfRow) = _
    rw [List.map_reverse]
  · rw [hread]
    show ((((storeMany db ms).table.rows.drop db.table.rows.length).reverse.map
      sampleOfRow).map sensors_sample.id).Pairwise (fun a b => b < a)
    rw [List.map_map, List.pairwise_map, List.pairwise_reverse]
    exact hsuffix.imp (fun h => by
      show ((_ : Nat) : Int) < ((_ : Nat) : Int)
      exact_mod_cast h)

theorem read_n_after_stores_witness :
    (sensors_db_read_n (storeMany producerFreshDb twoMeas)
      (twoMeas.length : Int) true none).1 = twoMeas.length :=
  (read_n_after_stores twoMeas producerFreshDb rfl rfl (by decide)).1

/-- C8: under the write-path guarantee that every stored timestamp is
NUL-free text of at most 31 characters (the store only ever records
19-character fixed-format text — final conjunct), every sample returned
by `sensors_db_read_latest` or `sensors_db_read_n` carries a timestamp
buffer of exactly 32 bytes whose usable (pre-NUL) part is exactly the
stored text, hence at most 31 usable characters; and `strncpy` depends
only on the first 32 characters of its source, so the copy never reads
past that bound. -/
theorem timestamp_bounds (db : sensors_db)
    (hts : ∀ r ∈ db.table.rows, r.timestamp.length ≤ 31 ∧ Char.ofNat 0 ∉ r.timestamp) :
    (∀ s, (sensors_db_read_latest db true false).2 = some s →
      ∃ r ∈ db.table.rows, s.timestamp = strncpyBuf r.timestamp 32 ∧
        s.timestamp.length = 32 ∧ usableChars s.timestamp = r.timestamp ∧
        (usableChars s.timestamp).length ≤ 31) ∧
    (∀ max_samples failAfter,
      ∀ s ∈ (sensors_db_read_n db max_samples true failAfter).2,
      ∃ r ∈ db.table.rows, s.timestamp = strncpyBuf r.timestamp 32 ∧
        s.timestamp.length = 32 ∧ usableChars s.timestamp = r.timestamp ∧
        (usableChars s.timestamp).length ≤ 31) ∧
    (∀ src : List Char, strncpyBuf src 32 = strncpyBuf (src.take 32) 32) ∧
    (∀ t : Nat, (tsChars t).length ≤ 31 ∧ Char.ofNat 0 ∉ tsChars t) := by
  have key : ∀ r ∈ db.table.rows,
      (strncpyBuf r.timestamp 32).length = 32 ∧
        usableChars (strncpyBuf r.timestamp 32) = r.timestamp ∧
        (usableChars (strncpyBuf r.timestamp 32)).length ≤ 31 := by
    intro r hr
    obtain ⟨h1, h2⟩ := hts r hr
    refine ⟨length_strncpyBuf _ _, usableChars_strncpyBuf _ h1 h2, ?_⟩
    rw [usableChars_strncpyBuf _ h1 h2]
    exact h1
  refine ⟨?_, ?_, ?_, ?_⟩
  · intro s hs
    simp only [sensors_db_read_latest] at hs
    rw [if_neg (by simp), if_neg (by simp)] at hs
    cases hsd : sortDesc db.table.rows with
    | nil =>
        rw [hsd] at hs
        simp at hs
    | cons r rest =>
        rw [hsd] at hs
        simp only [List.head?_cons, Option.some.injEq] at hs
        have hrmem : r ∈ db.table.rows :=
          (mem_sortDesc r _).mp (by rw [hsd]; exact List.mem_cons_self r rest)
        subst hs
        exact ⟨r, hrmem, rfl, (key r hrmem).1, (key r hrmem).2.1, (key r hrmem).2.2⟩
  · intro max_samples failAfter s hs
    simp only [sensors_db_read_n] at hs
    rw [if_neg (by simp)] at hs
    have hmem := read_n_loop_mem max_samples _ failAfter 0 [] s hs
    rcases hmem with hfalse | ⟨r, hr, rfl⟩
    · simp at hfalse
    · have hrrows : r ∈ db.table.rows := by
        by_cases hmax : max_samples < 0
        · rw [if_pos hmax] at hr
          exact (mem_sortDesc r _).mp hr
        · rw [if_neg hmax] at hr
          exact (mem_sortDesc r _).mp (List.mem_of_mem_take hr)
      exact ⟨r, hrrows, rfl, (key r hrrows).1, (key r hrrows).2.1, (key r hrrows).2.2⟩
  · intro src
    exact (strncpyBuf_take src 32).symm
  · intro t
    refine ⟨?_, nul_not_mem_tsChars t⟩
    rw [length_tsChars]
    omega

theorem timestamp_bounds_witness :
    (tsChars 0).length ≤ 31 ∧ Char.ofNat 0 ∉ tsChars 0 :=
  (timestamp_bounds consumerOneRowDb (by decide)).2.2.2 0

/-- C9 fails as stated: an empty-table `sensors_db_read_latest` (the
`NotFoundError` condition) and a `sensors_db_read_latest` whose
statement preparation fails (the `PrepareError`/`QueryError` condition)
return the identical failure value, so a caller cannot tell the two
apart from the returned failure value. -/
theorem error_values_cex :
    sensors_db_read_latest consumerEmptyDb true false =
      sensors_db_read_latest consumerEmptyDb false false ∧
    (sensors_db_read_latest consumerEmptyDb true false).1 = -1 := by
  decide

/-- C9 (amended): failures are surfaced only through the scalar return
value: every failing operation returns `-1` (or a NULL handle from
open), so the error taxonomy is not recoverable from the returned
failure value; only the stderr diagnostics separate the missing-file,
open-failure, schema-failure and read-only cases. -/
theorem error_values_collapse (db : sensors_db)
    (hm : db.mode ≠ SENSORS_DB_PRODUCER) (he : db.table.rows = []) :
    (sensors_db_read_latest db false false).1 = -1 ∧
    (sensors_db_read_latest db true false).1 = -1 ∧
    (sensors_db_read_latest db true true).1 = -1 ∧
    (sensors_db_store_data db 0 0 0 0 true true true).1 = -1 ∧
    (sensors_db_read_n db 1 false none).1 = -1 ∧
    (sensors_db_open false emptyTable SENSORS_DB_CONSUMER 0 true true true).1 = none ∧
    (sensors_db_open true emptyTable SENSORS_DB_CONSUMER 0 true false true).1 = none := by
  refine ⟨by simp [sensors_db_read_latest], ?_, by simp [sensors_db_read_latest],
    by simp [sensors_db_store_data, hm], by simp [sensors_db_read_n],
    by simp [sensors_db_open], by simp [sensors_db_open]⟩
  simp [sensors_db_read_latest, he, sortDesc]

theorem error_values_collapse_witness :
    (sensors_db_read_latest consumerEmptyDb true false).1 = -1 :=
  (error_values_collapse consumerEmptyDb (by decide) rfl).2.1
